import Mathlib

/-!
Verification model of the XCSoar wind measurement list
(Common/Source/windmeasurementlist.cpp, Common/Header/windmeasurementlist.h).

The store is a fixed-capacity (200) array of heap-allocated samples; we model
it as a `List WindMeasurement` whose positions are the array slots 0..count-1.
C `double` values are modelled as exact rationals; the C `unsigned int`
accumulators of `getWind` are modelled as naturals reduced mod 2^32, and the
`(int)` casts are modelled explicitly (`dtrunc` for double-to-int truncation,
`toI32` for the unsigned-to-int reinterpretation).
-/

namespace XCSoar

/-- The 2D wind vector of the source (struct Vector with double x, y). -/
structure Vector where
  x : ℚ
  y : ℚ
deriving DecidableEq

/-- One stored sample, as in windmeasurementlist.h: vector, int quality,
long time, double altitude. -/
structure WindMeasurement where
  vector : Vector
  quality : ℤ
  time : ℤ
  altitude : ℚ
deriving DecidableEq

instance : Inhabited WindMeasurement := ⟨⟨⟨0, 0⟩, 0, 0, 0⟩⟩

/-- MAX_MEASUREMENTS from the header. -/
def MAX_MEASUREMENTS : ℕ := 200

/-- The store: slots 0..count-1 of the fixed array, in order. -/
abbrev WindMeasurementList := List WindMeasurement

/-- C truncation of a real (double) value to an integer, as in the casts
(int)(Time) and (long)Time: rounding toward zero. -/
def dtrunc (q : ℚ) : ℤ := if 0 ≤ q then ⌊q⌋ else ⌈q⌉

/-- Conversion of a mathematical integer to C unsigned int: value mod 2^32. -/
def toU32 (z : ℤ) : ℕ := (Int.emod z (2 ^ 32)).toNat

/-- Reinterpretation of a C unsigned int value as a (two's complement) int,
as in the cast (int)total_quality. -/
def toI32 (n : ℕ) : ℤ := if n < 2 ^ 31 then (n : ℤ) else (n : ℤ) - 2 ^ 32

/-- Modelled from the spec: the repository's iround helper is only declared
(extern int iround(double)) in windmeasurementlist.cpp and its definition is
not part of the provided sources; per spec section 4.2 steps 4-6 it rounds its
argument to the nearest integer. -/
def iround (x : ℚ) : ℤ := round x

/-- altdiff as computed in getWind: (alt - m->altitude)*1.0/altRange with
altRange = 1000. -/
def altdiffOf (alt : ℚ) (m : WindMeasurement) : ℚ := (alt - m.altitude) / 1000

/-- timediff as computed in getWind: fabs((double)(now - m->time)/timeRange)
with timeRange = 36*100. -/
def timediffOf (now : ℤ) (m : WindMeasurement) : ℚ := |((now - m.time : ℤ) : ℚ) / 3600|

/-- The window test of getWind: (fabs(altdiff) < 1.0) && (timediff < 1.0). -/
def windowOk (now : ℤ) (alt : ℚ) (m : WindMeasurement) : Prop :=
  |altdiffOf alt m| < 1 ∧ timediffOf now m < 1

instance windowOkDec (now : ℤ) (alt : ℚ) (m : WindMeasurement) :
    Decidable (windowOk now alt m) :=
  inferInstanceAs (Decidable (_ ∧ _))

/-- a_quality of getWind: iround(((2.0/(altdiff*altdiff+1.0))-1.0) *
REL_FACTOR_ALTITUDE) with REL_FACTOR_ALTITUDE = 100. -/
def a_quality (altdiff : ℚ) : ℤ :=
  iround ((2 / (altdiff * altdiff + 1) - 1) * 100)

/-- t_quality of getWind: iround(k*(1.0-timediff)/(timediff*timediff+k) *
REL_FACTOR_TIME) with k = 0.0025 and REL_FACTOR_TIME = 200. -/
def t_quality (timediff : ℚ) : ℤ :=
  iround ((0.0025 : ℚ) * (1 - timediff) / (timediff * timediff + (0.0025 : ℚ)) * 200)

/-- The combined weight computed for one in-window sample:
quality = q_quality * (a_quality * t_quality) in unsigned int arithmetic,
with q_quality = m->quality * REL_FACTOR_QUALITY / 5 (C int division truncates
toward zero, hence Int.tdiv; the result is converted to unsigned). -/
def sampleWeight (now : ℤ) (alt : ℚ) (m : WindMeasurement) : ℕ :=
  (toU32 (Int.tdiv (m.quality * 100) 5) *
    ((toU32 (a_quality (altdiffOf alt m)) * toU32 (t_quality (timediffOf now m))) % 2 ^ 32)) % 2 ^ 32

/-- Accumulator state of the getWind loop: the partial sums held in result.x,
result.y and the unsigned total_quality. -/
structure GWAcc where
  sumX : ℚ
  sumY : ℚ
  total : ℕ
deriving DecidableEq

/-- One iteration of the getWind loop body. -/
def gwStep (now : ℤ) (alt : ℚ) (acc : GWAcc) (m : WindMeasurement) : GWAcc :=
  if windowOk now alt m then
    let w := sampleWeight now alt m
    ⟨acc.sumX + m.vector.x * (w : ℚ), acc.sumY + m.vector.y * (w : ℚ),
      (acc.total + w) % 2 ^ 32⟩
  else acc

/-- The full accumulation pass of getWind over the stored samples. -/
def getWindAccum (l : WindMeasurementList) (now : ℤ) (alt : ℚ) : GWAcc :=
  l.foldl (gwStep now alt) ⟨0, 0, 0⟩

/-- getWind: truncate Time to now, accumulate, and normalize by
(int)total_quality when total_quality > 0; otherwise return the raw
accumulated result with found = false. -/
def getWind (l : WindMeasurementList) (Time alt : ℚ) : Vector × Bool :=
  let now := dtrunc Time
  let a := getWindAccum l now alt
  if 0 < a.total then
    (⟨a.sumX / ((toI32 a.total : ℤ) : ℚ), a.sumY / ((toI32 a.total : ℤ) : ℚ)⟩, true)
  else
    (⟨a.sumX, a.sumY⟩, false)

/-- The eviction score of one sample in getLeastImportantItem:
score = 600*(6 - quality); score += (int)(Time - (double)time). -/
def evictionScore (Time : ℚ) (m : WindMeasurement) : ℤ :=
  600 * (6 - m.quality) + dtrunc (Time - (m.time : ℚ))

/-- The descending scan of getLeastImportantItem: process indices i-1, ..., 0
carrying (maxscore, founditem), updating only on a strict improvement. -/
def gliLoop (f : ℕ → ℤ) : ℕ → ℤ × ℕ → ℤ × ℕ
  | 0, acc => acc
  | i + 1, acc => gliLoop f i (if acc.1 < f i then (f i, i) else acc)

/-- getLeastImportantItem: maxscore starts at 0 and founditem at count-1;
scan from the highest index down to 0, keeping the running maximum only on a
strict improvement. -/
def getLeastImportantItem (Time : ℚ) (l : WindMeasurementList) : ℕ :=
  (gliLoop (fun i => evictionScore Time (l.getD i default)) l.length (0, l.length - 1)).2

/-- The sample record built and stored by addMeasurement:
wind->time = (long)Time, other fields stored unchanged. -/
def mkMeasurement (Time : ℚ) (vector : Vector) (alt : ℚ) (quality : ℤ) :
    WindMeasurement :=
  ⟨vector, quality, dtrunc Time, alt⟩

/-- addMeasurement: when the store is full, overwrite the least important
slot; otherwise append at the next free slot. -/
def addMeasurement (l : WindMeasurementList) (Time : ℚ) (vector : Vector)
    (alt : ℚ) (quality : ℤ) : WindMeasurementList :=
  let wind := mkMeasurement Time vector alt quality
  if l.length = MAX_MEASUREMENTS then
    l.set (getLeastImportantItem Time l) wind
  else
    l ++ [wind]

/-! Helper lemmas for evaluating the model on concrete inputs. -/

/-- dtrunc of an integer value is that integer. -/
lemma dtrunc_intCast (z : ℤ) : dtrunc (z : ℚ) = z := by
  unfold dtrunc
  split
  · exact Int.floor_intCast z
  · exact Int.ceil_intCast z

/-- Evaluate dtrunc on a nonnegative rational from floor bounds. -/
lemma dtrunc_eval_nonneg {q : ℚ} {z : ℤ} (h0 : 0 ≤ q) (h1 : (z : ℚ) ≤ q)
    (h2 : q < (z : ℚ) + 1) : dtrunc q = z := by
  unfold dtrunc
  rw [if_pos h0]
  rw [Int.floor_eq_iff]
  · exact ⟨h1, by exact_mod_cast h2⟩

/-- Evaluate dtrunc on a negative rational from ceiling bounds. -/
lemma dtrunc_eval_neg {q : ℚ} {z : ℤ} (h0 : ¬ 0 ≤ q) (h1 : (z : ℚ) - 1 < q)
    (h2 : q ≤ (z : ℚ)) : dtrunc q = z := by
  unfold dtrunc
  rw [if_neg h0]
  rw [Int.ceil_eq_iff]
  · exact ⟨by exact_mod_cast h1, h2⟩

/-- Evaluate round from bounds on q + 1/2. -/
lemma round_eval {q : ℚ} {z : ℤ} (h1 : (z : ℚ) ≤ q + 1 / 2)
    (h2 : q + 1 / 2 < (z : ℚ) + 1) : round q = z := by
  rw [round_eq]
  rw [Int.floor_eq_iff]
  · exact ⟨h1, by exact_mod_cast h2⟩

/-- Round is monotone. -/
lemma round_mono {x y : ℚ} (h : x ≤ y) : round x ≤ round y := by
  rw [round_eq, round_eq]
  exact Int.floor_le_floor (by linarith)

/-- getD on a replicated list inside its length. -/
lemma getD_replicate {α : Type} (b d : α) {n i : ℕ} (h : i < n) :
    (List.replicate n b).getD i d = b := by
  rw [List.getD_eq_getElem?_getD, List.getElem?_eq_getElem (by simpa using h)]
  simp

/-- Eviction score at an integer reference time needs no truncation. -/
lemma evictionScore_int (Time : ℤ) (m : WindMeasurement) :
    evictionScore (Time : ℚ) m = 600 * (6 - m.quality) + (Time - m.time) := by
  unfold evictionScore
  rw [show ((Time : ℚ) - (m.time : ℚ)) = ((Time - m.time : ℤ) : ℚ) by push_cast; ring,
    dtrunc_intCast]

/-! Structure of the descending scan in getLeastImportantItem. -/

/-- Unfolding equation of the scan. -/
lemma gliLoop_succ (f : ℕ → ℤ) (k : ℕ) (acc : ℤ × ℕ) :
    gliLoop f (k + 1) acc = gliLoop f k (if acc.1 < f k then (f k, k) else acc) := rfl

/-- The running maximum never decreases along the scan. -/
lemma gliLoop_fst_le (f : ℕ → ℤ) : ∀ (n : ℕ) (acc : ℤ × ℕ), acc.1 ≤ (gliLoop f n acc).1 := by
  intro n
  induction n with
  | zero => intro acc; exact le_refl _
  | succ k ih =>
    intro acc
    rw [gliLoop_succ]
    refine le_trans ?_ (ih _)
    by_cases hc : acc.1 < f k
    · rw [if_pos hc]; exact le_of_lt hc
    · rw [if_neg hc]

/-- Every scanned score is bounded by the final running maximum. -/
lemma gliLoop_le_fst (f : ℕ → ℤ) : ∀ (n : ℕ) (acc : ℤ × ℕ) (i : ℕ), i < n →
    f i ≤ (gliLoop f n acc).1 := by
  intro n
  induction n with
  | zero => intro acc i hi; omega
  | succ k ih =>
    intro acc i hi
    rw [gliLoop_succ]
    rcases Nat.lt_succ_iff_lt_or_eq.mp hi with h | rfl
    · exact ih _ i h
    · refine le_trans ?_ (gliLoop_fst_le f i _)
      by_cases hc : acc.1 < f i
      · rw [if_pos hc]
      · rw [if_neg hc]
        omega

/-- The scan returns either its initial accumulator or a scanned index
together with its own score. -/
lemma gliLoop_cases (f : ℕ → ℤ) : ∀ (n : ℕ) (acc : ℤ × ℕ),
    gliLoop f n acc = acc ∨
      ((gliLoop f n acc).2 < n ∧ (gliLoop f n acc).1 = f (gliLoop f n acc).2) := by
  intro n
  induction n with
  | zero => intro acc; exact Or.inl rfl
  | succ k ih =>
    intro acc
    rw [gliLoop_succ]
    by_cases hc : acc.1 < f k
    · rw [if_pos hc]
      rcases ih (f k, k) with h | ⟨h1, h2⟩
      · rw [h]
        exact Or.inr ⟨Nat.lt_succ_self k, rfl⟩
      · exact Or.inr ⟨Nat.lt_succ_of_lt h1, h2⟩
    · rw [if_neg hc]
      rcases ih acc with h | ⟨h1, h2⟩
      · exact Or.inl h
      · exact Or.inr ⟨Nat.lt_succ_of_lt h1, h2⟩

/-- If no scanned score strictly beats the initial maximum, the scan returns
its initial accumulator unchanged. -/
lemma gliLoop_stable (f : ℕ → ℤ) : ∀ (n : ℕ) (acc : ℤ × ℕ),
    (∀ j, j < n → f j ≤ acc.1) → gliLoop f n acc = acc := by
  intro n
  induction n with
  | zero => intro acc _; rfl
  | succ k ih =>
    intro acc h
    rw [gliLoop_succ]
    rw [if_neg (not_lt.mpr (h k (Nat.lt_succ_self k)))]
    exact ih acc fun j hj => h j (Nat.lt_succ_of_lt hj)

/-- If index i holds the unique top positive score among the scanned indices
(strictly above all higher indices, weakly above all lower ones), the scan
lands exactly on i. -/
lemma gliLoop_top (f : ℕ → ℤ) : ∀ (n : ℕ) (acc : ℤ × ℕ) (i : ℕ), i < n →
    0 ≤ acc.1 → acc.1 < f i → (∀ j, i < j → j < n → f j < f i) →
    (∀ j, j < i → f j ≤ f i) → gliLoop f n acc = (f i, i) := by
  intro n
  induction n with
  | zero => intro acc i hi; omega
  | succ k ih =>
    intro acc i hi h0 hlt habove hbelow
    rw [gliLoop_succ]
    rcases Nat.lt_succ_iff_lt_or_eq.mp hi with h | rfl
    · by_cases hc : acc.1 < f k
      · rw [if_pos hc]
        refine ih (f k, k) i h (le_trans h0 (le_of_lt hc)) ?_ ?_ hbelow
        · exact habove k h (Nat.lt_succ_self k)
        · exact fun j hj1 hj2 => habove j hj1 (Nat.lt_succ_of_lt hj2)
      · rw [if_neg hc]
        exact ih acc i h h0 hlt (fun j hj1 hj2 => habove j hj1 (Nat.lt_succ_of_lt hj2)) hbelow
    · rw [if_pos hlt]
      exact gliLoop_stable f i (f i, i) fun j hj => hbelow j hj

/-! Claim C1: the evicted sample maximizes the eviction score. -/

/-- The sample selected for eviction has maximal eviction score among all
stored samples. -/
def evictsMaximal (Time : ℚ) (l : WindMeasurementList) : Prop :=
  ∀ i, i < l.length →
    evictionScore Time (l.getD i default) ≤
      evictionScore Time (l.getD (getLeastImportantItem Time l) default)

/-- A full store on which every eviction score is nonpositive: index 0 has
score 0 and all other 199 slots have score -1 at reference time 0. -/
def cexStoreC1 : WindMeasurementList :=
  ⟨⟨0, 0⟩, 6, 0, 0⟩ :: List.replicate 199 ⟨⟨0, 0⟩, 6, 1, 0⟩

lemma cexStoreC1_length : cexStoreC1.length = 200 := by
  unfold cexStoreC1
  rw [List.length_cons, List.length_replicate]

lemma cexStoreC1_score_zero :
    evictionScore 0 (cexStoreC1.getD 0 default) = 0 := by
  have h := evictionScore_int 0 (⟨⟨0, 0⟩, 6, 0, 0⟩ : WindMeasurement)
  norm_num at h
  exact h

lemma cexStoreC1_score_rest {i : ℕ} (h1 : 1 ≤ i) (h2 : i < 200) :
    evictionScore 0 (cexStoreC1.getD i default) = -1 := by
  obtain ⟨j, rfl⟩ : ∃ j, i = j + 1 := ⟨i - 1, by omega⟩
  have hget : cexStoreC1.getD (j + 1) default = ⟨⟨0, 0⟩, 6, 1, 0⟩ := by
    show (List.replicate 199 (⟨⟨0, 0⟩, 6, 1, 0⟩ : WindMeasurement)).getD j default = _
    exact getD_replicate _ _ (by omega)
  rw [hget]
  have h := evictionScore_int 0 (⟨⟨0, 0⟩, 6, 1, 0⟩ : WindMeasurement)
  norm_num at h
  exact h

lemma cexStoreC1_gli : getLeastImportantItem 0 cexStoreC1 = 199 := by
  unfold getLeastImportantItem
  rw [cexStoreC1_length]
  rw [gliLoop_stable]
  intro j hj
  rcases Nat.eq_zero_or_pos j with rfl | hjpos
  · rw [cexStoreC1_score_zero]
  · rw [cexStoreC1_score_rest hjpos hj]
    norm_num

/-- Claim C1 as stated is false: on this full store every eviction score is
nonpositive, so the strict-improvement scan never updates its initial
founditem = 199, whose score -1 is not maximal (index 0 has score 0). -/
theorem C1_counterexample :
    cexStoreC1.length = MAX_MEASUREMENTS ∧ ¬ evictsMaximal 0 cexStoreC1 := by
  refine ⟨cexStoreC1_length, fun h => ?_⟩
  have h0 := h 0 (by rw [cexStoreC1_length]; norm_num)
  rw [cexStoreC1_gli, cexStoreC1_score_zero,
    cexStoreC1_score_rest (by norm_num) (by norm_num)] at h0
  exact absurd h0 (by norm_num)

/-- Claim C1, amended: in a full store, whenever at least one stored sample
has a strictly positive eviction score (as always holds for quality at most 5
and a reference time not earlier than the stored times), the sample selected
for eviction by addMeasurement's eviction step is one whose eviction score is
maximal over all currently stored samples. -/
theorem C1_eviction_is_max_score (l : WindMeasurementList) (Time : ℚ)
    (_hfull : l.length = MAX_MEASUREMENTS)
    (hpos : ∃ i, i < l.length ∧ 0 < evictionScore Time (l.getD i default)) :
    evictsMaximal Time l := by
  intro j hj
  obtain ⟨i, hi, hipos⟩ := hpos
  have hj2 := gliLoop_le_fst (fun i => evictionScore Time (l.getD i default))
    l.length (0, l.length - 1) j hj
  rcases gliLoop_cases (fun i => evictionScore Time (l.getD i default))
      l.length (0, l.length - 1) with hc | ⟨_, hc2⟩
  · have hi2 := gliLoop_le_fst (fun i => evictionScore Time (l.getD i default))
      l.length (0, l.length - 1) i hi
    rw [hc] at hi2
    exact absurd (lt_of_lt_of_le hipos hi2) (by norm_num)
  · unfold getLeastImportantItem
    rw [← hc2]
    exact hj2

/-- Concrete instance of C1_eviction_is_max_score: a full store of quality-1
samples at time 0, queried at reference time 0 (every score is 3000). -/
def wStoreC1 : WindMeasurementList := List.replicate 200 ⟨⟨0, 0⟩, 1, 0, 0⟩

theorem C1_witness :
    evictionScore 0 (wStoreC1.getD 0 default) ≤
      evictionScore 0 (wStoreC1.getD (getLeastImportantItem 0 wStoreC1) default) := by
  refine C1_eviction_is_max_score wStoreC1 0 (by rw [wStoreC1, List.length_replicate, MAX_MEASUREMENTS])
    ⟨0, ?_, ?_⟩ 0 (by rw [wStoreC1, List.length_replicate]; norm_num)
  · rw [wStoreC1, List.length_replicate]
    norm_num
  · rw [wStoreC1, getD_replicate _ _ (by norm_num : (0:ℕ) < 200)]
    have h := evictionScore_int 0 (⟨⟨0, 0⟩, 1, 0, 0⟩ : WindMeasurement)
    norm_num at h
    rw [h]
    norm_num

/-! Claim C7: deterministic tie-break of the descending eviction scan. -/

/-- Index i carries a maximal eviction score for the given store and
reference time. -/
def isMaxScoreIndex (Time : ℚ) (l : WindMeasurementList) (i : ℕ) : Prop :=
  i < l.length ∧ ∀ j, j < l.length →
    evictionScore Time (l.getD j default) ≤ evictionScore Time (l.getD i default)

/-- A full store whose maximal score 0 is tied between indices 0 and 1 while
all other 198 slots score -5 at reference time 0. -/
def cexStoreC7 : WindMeasurementList :=
  ⟨⟨0, 0⟩, 6, 0, 0⟩ :: ⟨⟨0, 0⟩, 6, 0, 0⟩ :: List.replicate 198 ⟨⟨0, 0⟩, 6, 5, 0⟩

lemma cexStoreC7_length : cexStoreC7.length = 200 := by
  unfold cexStoreC7
  rw [List.length_cons, List.length_cons, List.length_replicate]

lemma cexStoreC7_score_lo {i : ℕ} (h : i < 2) :
    evictionScore 0 (cexStoreC7.getD i default) = 0 := by
  have hm := evictionScore_int 0 (⟨⟨0, 0⟩, 6, 0, 0⟩ : WindMeasurement)
  norm_num at hm
  interval_cases i
  · exact hm
  · exact hm

lemma cexStoreC7_score_hi {i : ℕ} (h1 : 2 ≤ i) (h2 : i < 200) :
    evictionScore 0 (cexStoreC7.getD i default) = -5 := by
  obtain ⟨j, rfl⟩ : ∃ j, i = j + 2 := ⟨i - 2, by omega⟩
  have hget : cexStoreC7.getD (j + 2) default = ⟨⟨0, 0⟩, 6, 5, 0⟩ := by
    show (List.replicate 198 (⟨⟨0, 0⟩, 6, 5, 0⟩ : WindMeasurement)).getD j default = _
    exact getD_replicate _ _ (by omega)
  rw [hget]
  have hm := evictionScore_int 0 (⟨⟨0, 0⟩, 6, 5, 0⟩ : WindMeasurement)
  norm_num at hm
  exact hm

lemma cexStoreC7_gli : getLeastImportantItem 0 cexStoreC7 = 199 := by
  unfold getLeastImportantItem
  rw [cexStoreC7_length]
  rw [gliLoop_stable]
  intro j hj
  rcases Nat.lt_or_ge j 2 with hj2 | hj2
  · rw [cexStoreC7_score_lo hj2]
  · rw [cexStoreC7_score_hi hj2 hj]
    norm_num

/-- Claim C7 as stated is false: indices 0 and 1 are exactly tied at the
maximum score 0 of this full store, yet the eviction scan (whose running
maximum starts at 0 and updates only on strict improvement) returns its
initial founditem 199, a sample that is not tied at the maximum at all. -/
theorem C7_counterexample :
    cexStoreC7.length = MAX_MEASUREMENTS ∧
    isMaxScoreIndex 0 cexStoreC7 0 ∧ isMaxScoreIndex 0 cexStoreC7 1 ∧
    getLeastImportantItem 0 cexStoreC7 = 199 ∧
    ¬ isMaxScoreIndex 0 cexStoreC7 199 := by
  have hall : ∀ j, j < cexStoreC7.length →
      evictionScore 0 (cexStoreC7.getD j default) ≤ 0 := by
    intro j hj
    rw [cexStoreC7_length] at hj
    rcases Nat.lt_or_ge j 2 with hj2 | hj2
    · rw [cexStoreC7_score_lo hj2]
    · rw [cexStoreC7_score_hi hj2 hj]
      norm_num
  refine ⟨cexStoreC7_length, ⟨?_, ?_⟩, ⟨?_, ?_⟩, cexStoreC7_gli, ?_⟩
  · rw [cexStoreC7_length]; norm_num
  · intro j hj
    rw [cexStoreC7_score_lo (by norm_num : (0:ℕ) < 2)]
    exact hall j hj
  · rw [cexStoreC7_length]; norm_num
  · intro j hj
    rw [cexStoreC7_score_lo (by norm_num : (1:ℕ) < 2)]
    exact hall j hj
  · rintro ⟨-, hmax⟩
    have h0 := hmax 0 (by rw [cexStoreC7_length]; norm_num)
    rw [cexStoreC7_score_lo (by norm_num : (0:ℕ) < 2),
      cexStoreC7_score_hi (by norm_num) (by norm_num)] at h0
    exact absurd h0 (by norm_num)

/-- Claim C7, amended: in a full store, when index i attains the maximum
eviction score, that maximum is positive, and every higher-indexed sample
scores strictly lower (i.e. i is the highest-indexed sample tied at the
maximum), the descending strict-improvement scan deterministically evicts
index i. -/
theorem C7_tiebreak_highest_tied (l : WindMeasurementList) (Time : ℚ) (i : ℕ)
    (_hfull : l.length = MAX_MEASUREMENTS) (hi : i < l.length)
    (hpos : 0 < evictionScore Time (l.getD i default))
    (hmax : ∀ j, j < l.length →
      evictionScore Time (l.getD j default) ≤ evictionScore Time (l.getD i default))
    (htop : ∀ j, i < j → j < l.length →
      evictionScore Time (l.getD j default) < evictionScore Time (l.getD i default)) :
    getLeastImportantItem Time l = i := by
  unfold getLeastImportantItem
  rw [gliLoop_top (fun j => evictionScore Time (l.getD j default)) l.length
    (0, l.length - 1) i hi le_rfl hpos htop
    (fun j hj => hmax j (lt_trans hj hi))]

/-- Concrete instance for C7_tiebreak_highest_tied: all 200 slots tie at
score 2400, so the highest-indexed sample, 199, is evicted. -/
def wStoreC7 : WindMeasurementList := List.replicate 200 ⟨⟨0, 0⟩, 2, 0, 0⟩

theorem C7_witness : getLeastImportantItem 0 wStoreC7 = 199 := by
  have hs : ∀ j, j < 200 → evictionScore 0 (wStoreC7.getD j default) = 2400 := by
    intro j hj
    rw [wStoreC7, getD_replicate _ _ hj]
    have h := evictionScore_int 0 (⟨⟨0, 0⟩, 2, 0, 0⟩ : WindMeasurement)
    norm_num at h
    exact h
  have hlen : wStoreC7.length = 200 := by rw [wStoreC7, List.length_replicate]
  refine C7_tiebreak_highest_tied wStoreC7 0 199
    (by rw [hlen, MAX_MEASUREMENTS]) (by rw [hlen]; norm_num) ?_ ?_ ?_
  · rw [hs 199 (by norm_num)]
    norm_num
  · intro j hj
    rw [hlen] at hj
    rw [hs j hj, hs 199 (by norm_num)]
  · intro j hj1 hj2
    rw [hlen] at hj2
    omega

/-! Claim C2: the capacity invariant of addMeasurement. -/

/-- One producer call to addMeasurement, with its four arguments. -/
structure Call where
  time : ℚ
  vector : Vector
  alt : ℚ
  quality : ℤ

/-- Apply one call to the store. -/
def applyCall (l : WindMeasurementList) (c : Call) : WindMeasurementList :=
  addMeasurement l c.time c.vector c.alt c.quality

/-- Run a sequence of calls from the freshly constructed (empty) store. -/
def runCalls (calls : List Call) : WindMeasurementList :=
  calls.foldl applyCall []

/-- Length behaviour of a single addMeasurement call. -/
lemma addMeasurement_length (l : WindMeasurementList) (Time : ℚ) (v : Vector)
    (alt : ℚ) (q : ℤ) :
    (addMeasurement l Time v alt q).length =
      if l.length = MAX_MEASUREMENTS then MAX_MEASUREMENTS else l.length + 1 := by
  unfold addMeasurement
  by_cases hc : l.length = MAX_MEASUREMENTS
  · rw [if_pos hc, if_pos hc, List.length_set, hc]
  · rw [if_neg hc, if_neg hc, List.length_append, List.length_cons, List.length_nil]

/-- Claim C2: from a fresh store, count stays between 0 and 200 after every
call sequence; a call below capacity adds exactly one sample, and a call at
capacity leaves the count at exactly 200 (evict one, insert one). -/
theorem C2_capacity_invariant :
    (∀ calls : List Call, (runCalls calls).length ≤ MAX_MEASUREMENTS) ∧
    (∀ (l : WindMeasurementList) (c : Call), l.length < MAX_MEASUREMENTS →
      (applyCall l c).length = l.length + 1) ∧
    (∀ (l : WindMeasurementList) (c : Call), l.length = MAX_MEASUREMENTS →
      (applyCall l c).length = MAX_MEASUREMENTS) := by
  have hstep : ∀ (l : WindMeasurementList) (c : Call), l.length ≤ MAX_MEASUREMENTS →
      (applyCall l c).length ≤ MAX_MEASUREMENTS := by
    intro l c h
    unfold applyCall
    rw [addMeasurement_length]
    by_cases hc : l.length = MAX_MEASUREMENTS
    · rw [if_pos hc]
    · rw [if_neg hc]
      omega
  refine ⟨?_, ?_, ?_⟩
  · intro calls
    suffices h : ∀ (l : WindMeasurementList), l.length ≤ MAX_MEASUREMENTS →
        (calls.foldl applyCall l).length ≤ MAX_MEASUREMENTS by
      exact h [] (by rw [List.length_nil]; omega)
    induction calls with
    | nil => intro l h; exact h
    | cons c cs ih =>
      intro l h
      exact ih _ (hstep l c h)
  · intro l c h
    unfold applyCall
    rw [addMeasurement_length, if_neg (by omega)]
  · intro l c h
    unfold applyCall
    rw [addMeasurement_length, if_pos h]

/-- Concrete instance of the per-call clauses of C2_capacity_invariant. -/
def wCallC2 : Call := ⟨0, ⟨1, 2⟩, 0, 3⟩

theorem C2_witness : (applyCall [] wCallC2).length = 0 + 1 :=
  C2_capacity_invariant.2.1 [] wCallC2
    (by rw [List.length_nil, MAX_MEASUREMENTS]; omega)

/-! Arithmetic facts about the weight factors of getWind. -/

/-- Casting toU32 back to the integers yields the value mod 2^32. -/
lemma toU32_cast (z : ℤ) : (toU32 z : ℤ) = z % 2 ^ 32 := by
  unfold toU32
  exact Int.toNat_of_nonneg (Int.emod_nonneg z (by norm_num))

/-- toU32 is the identity on values already in unsigned range. -/
lemma toU32_small {z : ℤ} (h0 : 0 ≤ z) (h1 : z < 2 ^ 32) : (toU32 z : ℤ) = z := by
  rw [toU32_cast, Int.emod_eq_of_lt h0 h1]

/-- C integer division of quality*100 by 5 is exact. -/
lemma tdiv_q100 (q : ℤ) : Int.tdiv (q * 100) 5 = q * 20 := by
  rw [show q * 100 = (q * 20) * 5 by ring, Int.mul_tdiv_cancel _ (by norm_num)]

/-- The spec's rounded quality weight is also exact. -/
lemma round_q100 (q : ℤ) : round ((q : ℚ) * 100 / 5) = q * 20 := by
  rw [show ((q : ℚ) * 100 / 5) = ((q * 20 : ℤ) : ℚ) by push_cast; ring, round_intCast]

/-- Inside the altitude window, the altitude factor lies in [0, 100]. -/
lemma a_quality_bounds {ad : ℚ} (h : |ad| < 1) :
    0 ≤ a_quality ad ∧ a_quality ad ≤ 100 := by
  have habs := abs_lt.mp h
  have had : ad * ad < 1 := by nlinarith [habs.1, habs.2]
  have hd : (0 : ℚ) < ad * ad + 1 := by nlinarith [mul_self_nonneg ad]
  have hv1 : (0 : ℚ) ≤ (2 / (ad * ad + 1) - 1) * 100 := by
    have : (1 : ℚ) < 2 / (ad * ad + 1) := (one_lt_div hd).mpr (by linarith)
    nlinarith
  have hv2 : (2 / (ad * ad + 1) - 1) * 100 ≤ 100 := by
    have : 2 / (ad * ad + 1) ≤ 2 := by
      rw [div_le_iff₀ hd]
      nlinarith
    nlinarith
  unfold a_quality iround
  constructor
  · have hr := round_mono hv1
    rw [round_zero] at hr
    exact hr
  · have hr := round_mono hv2
    rw [show ((100 : ℚ)) = (((100 : ℤ)) : ℚ) by norm_num, round_intCast] at hr
    exact hr

/-- Inside the time window, the time factor lies in [0, 200]. -/
lemma t_quality_bounds {td : ℚ} (h0 : 0 ≤ td) (h1 : td < 1) :
    0 ≤ t_quality td ∧ t_quality td ≤ 200 := by
  have hd : (0 : ℚ) < td * td + (0.0025 : ℚ) := by
    have : (0.0025 : ℚ) = 1 / 400 := by norm_num
    nlinarith
  have hv1 : (0 : ℚ) ≤ (0.0025 : ℚ) * (1 - td) / (td * td + (0.0025 : ℚ)) * 200 := by
    have hnum : (0 : ℚ) ≤ (0.0025 : ℚ) * (1 - td) := by
      have : (0.0025 : ℚ) = 1 / 400 := by norm_num
      nlinarith
    have := div_nonneg hnum (le_of_lt hd)
    nlinarith
  have hv2 : (0.0025 : ℚ) * (1 - td) / (td * td + (0.0025 : ℚ)) * 200 ≤ 200 := by
    have hfrac : (0.0025 : ℚ) * (1 - td) / (td * td + (0.0025 : ℚ)) ≤ 1 := by
      rw [div_le_one hd]
      nlinarith
    nlinarith
  unfold t_quality iround
  constructor
  · have hr := round_mono hv1
    rw [round_zero] at hr
    exact hr
  · have hr := round_mono hv2
    rw [show ((200 : ℚ)) = (((200 : ℤ)) : ℚ) by norm_num, round_intCast] at hr
    exact hr

/-- The altitude factor at zero altitude difference. -/
lemma a_quality_zero : a_quality 0 = 100 := by
  unfold a_quality iround
  exact round_eval (by norm_num) (by norm_num)

/-- The time factor at zero time difference. -/
lemma t_quality_zero : t_quality 0 = 200 := by
  unfold t_quality iround
  exact round_eval (by norm_num) (by norm_num)

/-- The time factor rounds to zero near the edge of the window: an in-window
sample 3597 time units away contributes a zero time factor. -/
lemma t_quality_edge : t_quality (3597 / 3600) = 0 := by
  unfold t_quality iround
  exact round_eval (by norm_num) (by norm_num)

/-- altdiff vanishes when the sample is at the query altitude. -/
lemma altdiffOf_self (alt : ℚ) (m : WindMeasurement) (h : m.altitude = alt) :
    altdiffOf alt m = 0 := by
  unfold altdiffOf
  rw [h]
  ring

/-- timediff vanishes when the sample is at the (truncated) query time. -/
lemma timediffOf_self (now : ℤ) (m : WindMeasurement) (h : m.time = now) :
    timediffOf now m = 0 := by
  unfold timediffOf
  rw [h]
  simp

/-- In-window characterization of the combined weight: the unsigned value is
quality*20*(a_quality*t_quality) reduced mod 2^32. -/
lemma sampleWeight_eq (now : ℤ) (alt : ℚ) (m : WindMeasurement)
    (hw : windowOk now alt m) :
    (sampleWeight now alt m : ℤ) =
      m.quality * 20 *
        (a_quality (altdiffOf alt m) * t_quality (timediffOf now m)) % 2 ^ 32 := by
  obtain ⟨hwa, hwt⟩ := hw
  obtain ⟨hA0, hA1⟩ := a_quality_bounds hwa
  have hT0q : (0 : ℚ) ≤ timediffOf now m := by
    unfold timediffOf
    exact abs_nonneg _
  obtain ⟨hT0, hT1⟩ := t_quality_bounds hT0q hwt
  unfold sampleWeight
  rw [tdiv_q100]
  have hA : (toU32 (a_quality (altdiffOf alt m)) : ℤ) = a_quality (altdiffOf alt m) :=
    toU32_small hA0 (by omega)
  have hT : (toU32 (t_quality (timediffOf now m)) : ℤ) = t_quality (timediffOf now m) :=
    toU32_small hT0 (by omega)
  have hATn : toU32 (a_quality (altdiffOf alt m)) * toU32 (t_quality (timediffOf now m))
      < 2 ^ 32 := by
    have hcast : (toU32 (a_quality (altdiffOf alt m)) *
        toU32 (t_quality (timediffOf now m)) : ℤ) < 2 ^ 32 := by
      push_cast
      rw [hA, hT]
      nlinarith
    exact_mod_cast hcast
  rw [Nat.mod_eq_of_lt hATn]
  push_cast [Int.ofNat_emod]
  rw [hA, hT, toU32_cast]
  conv_lhs => rw [Int.mul_emod]
  conv_rhs => rw [Int.mul_emod]
  rw [show ((2 : ℤ) ^ 32) = 4294967296 by norm_num]
  rw [Int.emod_emod_of_dvd _ (dvd_refl _)]

/-- The combined weight is an unsigned-int value, hence below 2^32. -/
lemma sampleWeight_lt (now : ℤ) (alt : ℚ) (m : WindMeasurement) :
    sampleWeight now alt m < 2 ^ 32 := by
  unfold sampleWeight
  exact Nat.mod_lt _ (by norm_num)

/-! Claim C4: the combined weight agrees with the spec formula
qw * (aw * tw). -/

/-- The combined-weight formula exactly as the spec states it:
w = qw * (aw * tw) with qw = round(quality * 100 / 5) and aw, tw the rounded
altitude and time factors, in unbounded integer arithmetic. -/
def specCombinedWeight (q : ℤ) (ad td : ℚ) : ℤ :=
  round ((q : ℚ) * 100 / 5) * (a_quality ad * t_quality td)

/-- Claim C4, amended: for an in-window sample the weight accumulated by
getWind is the spec's combined weight qw * (aw * tw) reduced mod 2^32 (the
loop accumulates in C unsigned int variables); the two agree exactly whenever
the spec's product lies in [0, 2^32), which holds in particular for every
quality in the design range 1..5. -/
theorem C4_weight_formula (now : ℤ) (alt : ℚ) (m : WindMeasurement)
    (hw : windowOk now alt m) :
    (getWindAccum [m] now alt).total = sampleWeight now alt m ∧
    (sampleWeight now alt m : ℤ) =
      specCombinedWeight m.quality (altdiffOf alt m) (timediffOf now m) % 2 ^ 32 ∧
    (0 ≤ specCombinedWeight m.quality (altdiffOf alt m) (timediffOf now m) →
      specCombinedWeight m.quality (altdiffOf alt m) (timediffOf now m) < 2 ^ 32 →
      (sampleWeight now alt m : ℤ) =
        specCombinedWeight m.quality (altdiffOf alt m) (timediffOf now m)) := by
  have hspec : specCombinedWeight m.quality (altdiffOf alt m) (timediffOf now m) =
      m.quality * 20 * (a_quality (altdiffOf alt m) * t_quality (timediffOf now m)) := by
    unfold specCombinedWeight
    rw [round_q100]
  refine ⟨?_, ?_, ?_⟩
  · show (gwStep now alt ⟨0, 0, 0⟩ m).total = sampleWeight now alt m
    unfold gwStep
    rw [if_pos hw]
    show (0 + sampleWeight now alt m) % 2 ^ 32 = sampleWeight now alt m
    rw [Nat.zero_add, Nat.mod_eq_of_lt (sampleWeight_lt now alt m)]
  · rw [hspec]
    exact sampleWeight_eq now alt m hw
  · intro hge hlt
    rw [hspec] at hge hlt ⊢
    rw [sampleWeight_eq now alt m hw, Int.emod_eq_of_lt hge hlt]

/-- An in-window sample with the unvalidated quality value -1. -/
def cexM4 : WindMeasurement := ⟨⟨1, 0⟩, -1, 0, 0⟩

lemma cexM4_altdiff : altdiffOf 0 cexM4 = 0 := altdiffOf_self 0 cexM4 rfl

lemma cexM4_timediff : timediffOf 0 cexM4 = 0 := timediffOf_self 0 cexM4 rfl

lemma cexM4_window : windowOk 0 0 cexM4 := by
  constructor
  · rw [cexM4_altdiff]
    norm_num
  · rw [cexM4_timediff]
    norm_num

/-- Claim C4 as stated is false: for the in-window sample with quality -1 the
spec formula gives qw * (aw * tw) = -20 * 20000 = -400000, but the weight
accumulated by the unsigned loop is its mod-2^32 wraparound 4294567296. -/
theorem C4_counterexample :
    windowOk 0 0 cexM4 ∧
    (sampleWeight 0 0 cexM4 : ℤ) ≠
      specCombinedWeight cexM4.quality (altdiffOf 0 cexM4) (timediffOf 0 cexM4) := by
  refine ⟨cexM4_window, ?_⟩
  have hspec : specCombinedWeight cexM4.quality (altdiffOf 0 cexM4) (timediffOf 0 cexM4)
      = -400000 := by
    rw [cexM4_altdiff, cexM4_timediff]
    unfold specCombinedWeight
    rw [round_q100, a_quality_zero, t_quality_zero]
    norm_num [cexM4]
  have hsw : sampleWeight 0 0 cexM4 = 4294567296 := by
    unfold sampleWeight
    rw [cexM4_altdiff, cexM4_timediff, a_quality_zero, t_quality_zero]
    show (toU32 (Int.tdiv (-1 * 100) 5) * ((toU32 100 * toU32 200) % 2 ^ 32)) % 2 ^ 32
      = 4294567296
    decide
  rw [hspec, hsw]
  norm_num

/-- A normal in-window sample (quality 5 at the query point), on which the
code weight and the spec formula agree exactly. -/
def wM4 : WindMeasurement := ⟨⟨2, 3⟩, 5, 0, 0⟩

theorem C4_witness :
    (sampleWeight 0 0 wM4 : ℤ) =
      specCombinedWeight wM4.quality (altdiffOf 0 wM4) (timediffOf 0 wM4) := by
  have had : altdiffOf 0 wM4 = 0 := altdiffOf_self 0 wM4 rfl
  have htd : timediffOf 0 wM4 = 0 := timediffOf_self 0 wM4 rfl
  have hspec : specCombinedWeight wM4.quality (altdiffOf 0 wM4) (timediffOf 0 wM4)
      = 2000000 := by
    rw [had, htd]
    unfold specCombinedWeight
    rw [round_q100, a_quality_zero, t_quality_zero]
    norm_num [wM4]
  refine (C4_weight_formula 0 0 wM4 ⟨?_, ?_⟩).2.2 (by rw [hspec]; norm_num)
    (by rw [hspec]; norm_num)
  · rw [had]
    norm_num
  · rw [htd]
    norm_num

/-! Unfolding lemmas for getWind on small stores. -/

lemma getWindAccum_single (m : WindMeasurement) (now : ℤ) (alt : ℚ) :
    getWindAccum [m] now alt = gwStep now alt ⟨0, 0, 0⟩ m := rfl

lemma getWindAccum_pair (m1 m2 : WindMeasurement) (now : ℤ) (alt : ℚ) :
    getWindAccum [m1, m2] now alt = gwStep now alt (gwStep now alt ⟨0, 0, 0⟩ m1) m2 := rfl

lemma getWind_eq (l : WindMeasurementList) (Time alt : ℚ) :
    getWind l Time alt =
      if 0 < (getWindAccum l (dtrunc Time) alt).total then
        (⟨(getWindAccum l (dtrunc Time) alt).sumX /
            ((toI32 (getWindAccum l (dtrunc Time) alt).total : ℤ) : ℚ),
          (getWindAccum l (dtrunc Time) alt).sumY /
            ((toI32 (getWindAccum l (dtrunc Time) alt).total : ℤ) : ℚ)⟩, true)
      else
        (⟨(getWindAccum l (dtrunc Time) alt).sumX,
          (getWindAccum l (dtrunc Time) alt).sumY⟩, false) := rfl

/-- An out-of-window sample leaves the accumulator untouched. -/
lemma gwStep_skip (now : ℤ) (alt : ℚ) (acc : GWAcc) (m : WindMeasurement)
    (h : ¬ windowOk now alt m) : gwStep now alt acc m = acc := by
  unfold gwStep
  rw [if_neg h]

/-- An in-window sample adds its weighted vector and weight. -/
lemma gwStep_add (now : ℤ) (alt : ℚ) (acc : GWAcc) (m : WindMeasurement)
    (h : windowOk now alt m) :
    gwStep now alt acc m =
      ⟨acc.sumX + m.vector.x * (sampleWeight now alt m : ℚ),
        acc.sumY + m.vector.y * (sampleWeight now alt m : ℚ),
        (acc.total + sampleWeight now alt m) % 2 ^ 32⟩ := by
  unfold gwStep
  rw [if_pos h]

/-! Claim C5: a sample contributes exactly when it passes the window test. -/

/-- Claim C5: the loop body of getWind adds the weighted contribution of an
in-window sample and skips an out-of-window sample entirely, so an
out-of-window sample never influences the result: the estimate over one
in-window and one out-of-window sample equals the estimate over the in-window
sample alone. -/
theorem C5_window_exclusion :
    (∀ (now : ℤ) (alt : ℚ) (acc : GWAcc) (m : WindMeasurement),
      ¬ windowOk now alt m → gwStep now alt acc m = acc) ∧
    (∀ (now : ℤ) (alt : ℚ) (acc : GWAcc) (m : WindMeasurement),
      windowOk now alt m → gwStep now alt acc m =
        ⟨acc.sumX + m.vector.x * (sampleWeight now alt m : ℚ),
          acc.sumY + m.vector.y * (sampleWeight now alt m : ℚ),
          (acc.total + sampleWeight now alt m) % 2 ^ 32⟩) ∧
    (∀ (m1 m2 : WindMeasurement) (Time alt : ℚ),
      windowOk (dtrunc Time) alt m1 → ¬ windowOk (dtrunc Time) alt m2 →
      getWind [m1, m2] Time alt = getWind [m1] Time alt) := by
  refine ⟨gwStep_skip, gwStep_add, ?_⟩
  intro m1 m2 Time alt h1 h2
  rw [getWind_eq, getWind_eq, getWindAccum_pair, getWindAccum_single,
    gwStep_skip _ _ _ _ h2]

/-- A sample far outside the altitude window. -/
def wFarM5 : WindMeasurement := ⟨⟨9, 9⟩, 5, 0, 5000⟩

/-- An in-window sample at the query point. -/
def wNearM5 : WindMeasurement := ⟨⟨1, 2⟩, 5, 0, 0⟩

theorem C5_witness : getWind [wNearM5, wFarM5] 0 0 = getWind [wNearM5] 0 0 := by
  refine C5_window_exclusion.2.2 wNearM5 wFarM5 0 0 ⟨?_, ?_⟩ ?_
  · rw [altdiffOf_self 0 wNearM5 rfl]
    norm_num
  · rw [timediffOf_self (dtrunc 0) wNearM5 ?_]
    · norm_num
    · rw [show (0 : ℚ) = ((0 : ℤ) : ℚ) by norm_num, dtrunc_intCast]
      rfl
  · rintro ⟨habs, -⟩
    rw [show altdiffOf 0 wFarM5 = -5 by unfold altdiffOf wFarM5; norm_num] at habs
    norm_num at habs

/-! Claim C6: exactness on a single fresh maximal-quality sample. -/

/-- Claim C6: inserting one sample of quality 5 at altitude a0 and time t0
into a fresh store and querying getWind(t0, a0) yields the factor values
qw = 100, aw = 100, tw = 200, combined weight 2000000, found = true, and a
result vector exactly equal to the inserted vector. -/
theorem C6_single_sample (v : Vector) (a0 t0 : ℚ) :
    addMeasurement [] t0 v a0 5 = [mkMeasurement t0 v a0 5] ∧
    toU32 (Int.tdiv ((5 : ℤ) * 100) 5) = 100 ∧
    a_quality (altdiffOf a0 (mkMeasurement t0 v a0 5)) = 100 ∧
    t_quality (timediffOf (dtrunc t0) (mkMeasurement t0 v a0 5)) = 200 ∧
    sampleWeight (dtrunc t0) a0 (mkMeasurement t0 v a0 5) = 2000000 ∧
    getWind (addMeasurement [] t0 v a0 5) t0 a0 = (v, true) := by
  obtain ⟨vx, vy⟩ := v
  have hadd : addMeasurement [] t0 ⟨vx, vy⟩ a0 5 = [mkMeasurement t0 ⟨vx, vy⟩ a0 5] := by
    unfold addMeasurement
    rw [if_neg (by rw [List.length_nil, MAX_MEASUREMENTS]; omega)]
    rfl
  have had : altdiffOf a0 (mkMeasurement t0 ⟨vx, vy⟩ a0 5) = 0 :=
    altdiffOf_self a0 _ rfl
  have htd : timediffOf (dtrunc t0) (mkMeasurement t0 ⟨vx, vy⟩ a0 5) = 0 :=
    timediffOf_self (dtrunc t0) _ rfl
  have hw : windowOk (dtrunc t0) a0 (mkMeasurement t0 ⟨vx, vy⟩ a0 5) := by
    constructor
    · rw [had]
      norm_num
    · rw [htd]
      norm_num
  have hsw : sampleWeight (dtrunc t0) a0 (mkMeasurement t0 ⟨vx, vy⟩ a0 5) = 2000000 := by
    unfold sampleWeight
    rw [had, htd, a_quality_zero, t_quality_zero]
    show (toU32 (Int.tdiv (5 * 100) 5) * ((toU32 100 * toU32 200) % 2 ^ 32)) % 2 ^ 32
      = 2000000
    decide
  refine ⟨hadd, by decide, by rw [had, a_quality_zero], by rw [htd, t_quality_zero],
    hsw, ?_⟩
  rw [hadd, getWind_eq, getWindAccum_single, gwStep_add _ _ _ _ hw, hsw]
  have htot : ((0 : ℕ) + 2000000) % 2 ^ 32 = 2000000 := by norm_num
  show (if 0 < (GWAcc.mk (0 + vx * (2000000 : ℕ)) (0 + vy * (2000000 : ℕ))
      ((0 + 2000000) % 2 ^ 32)).total then _ else _) = _
  rw [show ((0 : ℕ) + 2000000) % 2 ^ 32 = 2000000 from htot]
  rw [if_pos (by norm_num : (0 : ℕ) < 2000000)]
  rw [show toI32 2000000 = 2000000 by decide]
  refine Prod.ext ?_ rfl
  show Vector.mk ((0 + vx * ((2000000 : ℕ) : ℚ)) / ((2000000 : ℤ) : ℚ))
    ((0 + vy * ((2000000 : ℕ) : ℚ)) / ((2000000 : ℤ) : ℚ)) = ⟨vx, vy⟩
  norm_num

/-! Claim C3: the found flag and normalization contract of getWind. -/

lemma dtrunc_zero : dtrunc (0 : ℚ) = 0 := by
  rw [show (0 : ℚ) = ((0 : ℤ) : ℚ) by norm_num, dtrunc_intCast]

/-- toI32 is the identity below 2^31. -/
lemma toI32_small {n : ℕ} (h : n < 2 ^ 31) : toI32 n = n := by
  unfold toI32
  rw [if_pos h]

/-- Claim C3, amended: found = true iff the accumulated (unsigned, mod-2^32)
total weight is positive, and then the result is the sums divided by the
int-reinterpretation of the total, which coincides with division by the total
itself whenever the total is below 2^31; when found = false the raw
accumulated sums are returned unchanged (they are (0, 0) unless 32-bit
wraparound cancelled the total); on the empty store the result is found =
false with the zero vector. -/
theorem C3_found_contract (l : WindMeasurementList) (Time alt : ℚ) :
    ((getWind l Time alt).2 = true ↔ 0 < (getWindAccum l (dtrunc Time) alt).total) ∧
    (0 < (getWindAccum l (dtrunc Time) alt).total →
      (getWind l Time alt).1 =
        ⟨(getWindAccum l (dtrunc Time) alt).sumX /
            ((toI32 (getWindAccum l (dtrunc Time) alt).total : ℤ) : ℚ),
          (getWindAccum l (dtrunc Time) alt).sumY /
            ((toI32 (getWindAccum l (dtrunc Time) alt).total : ℤ) : ℚ)⟩) ∧
    (0 < (getWindAccum l (dtrunc Time) alt).total →
      (getWindAccum l (dtrunc Time) alt).total < 2 ^ 31 →
      (getWind l Time alt).1 =
        ⟨(getWindAccum l (dtrunc Time) alt).sumX /
            ((getWindAccum l (dtrunc Time) alt).total : ℚ),
          (getWindAccum l (dtrunc Time) alt).sumY /
            ((getWindAccum l (dtrunc Time) alt).total : ℚ)⟩) ∧
    ((getWind l Time alt).2 = false →
      (getWind l Time alt).1 =
        ⟨(getWindAccum l (dtrunc Time) alt).sumX,
          (getWindAccum l (dtrunc Time) alt).sumY⟩) ∧
    getWind ([] : WindMeasurementList) Time alt = (⟨0, 0⟩, false) := by
  by_cases h : 0 < (getWindAccum l (dtrunc Time) alt).total
  · rw [getWind_eq, if_pos h]
    refine ⟨by simp [h], fun _ => rfl, fun _ hlt => ?_, by simp, rfl⟩
    rw [toI32_small hlt]
    push_cast
    rfl
  · rw [getWind_eq, if_neg h]
    exact ⟨by simp [h], fun hc => absurd hc h, fun hc _ => absurd hc h,
      fun _ => rfl, rfl⟩

/-- Two in-window samples whose unsigned weights 4294567296 and 400000 sum to
exactly 2^32, wrapping the accumulated total to zero. -/
def cexM3a : WindMeasurement := ⟨⟨1, 0⟩, -1, 0, 0⟩

def cexM3b : WindMeasurement := ⟨⟨1, 0⟩, 1, 0, 0⟩

lemma cexM3a_weight : sampleWeight 0 0 cexM3a = 4294567296 := by
  unfold sampleWeight
  rw [altdiffOf_self 0 cexM3a rfl, timediffOf_self 0 cexM3a rfl,
    a_quality_zero, t_quality_zero]
  show (toU32 (Int.tdiv (-1 * 100) 5) * ((toU32 100 * toU32 200) % 2 ^ 32)) % 2 ^ 32
    = 4294567296
  decide

lemma cexM3b_weight : sampleWeight 0 0 cexM3b = 400000 := by
  unfold sampleWeight
  rw [altdiffOf_self 0 cexM3b rfl, timediffOf_self 0 cexM3b rfl,
    a_quality_zero, t_quality_zero]
  show (toU32 (Int.tdiv (1 * 100) 5) * ((toU32 100 * toU32 200) % 2 ^ 32)) % 2 ^ 32
    = 400000
  decide

lemma cexM3a_window : windowOk 0 0 cexM3a := by
  constructor
  · rw [altdiffOf_self 0 cexM3a rfl]
    norm_num
  · rw [timediffOf_self 0 cexM3a rfl]
    norm_num

lemma cexM3b_window : windowOk 0 0 cexM3b := by
  constructor
  · rw [altdiffOf_self 0 cexM3b rfl]
    norm_num
  · rw [timediffOf_self 0 cexM3b rfl]
    norm_num

/-- Claim C3 as stated is false: on this two-sample store the two positive
unsigned weights sum to exactly 2^32, so the unsigned total wraps to 0 and
getWind returns found = false together with the raw, nonzero accumulated sum
vector (2^32, 0) instead of the claimed exact zero vector. -/
theorem C3_counterexample :
    (getWind [cexM3a, cexM3b] 0 0).2 = false ∧
    (getWind [cexM3a, cexM3b] 0 0).1 ≠ ⟨0, 0⟩ := by
  have haccum : getWindAccum [cexM3a, cexM3b] (dtrunc 0) 0 = ⟨4294967296, 0, 0⟩ := by
    rw [dtrunc_zero, getWindAccum_pair, gwStep_add _ _ _ _ cexM3a_window,
      gwStep_add _ _ _ _ cexM3b_window, cexM3a_weight, cexM3b_weight]
    show GWAcc.mk (0 + cexM3a.vector.x * ((4294567296 : ℕ) : ℚ) +
        cexM3b.vector.x * ((400000 : ℕ) : ℚ))
      (0 + cexM3a.vector.y * ((4294567296 : ℕ) : ℚ) +
        cexM3b.vector.y * ((400000 : ℕ) : ℚ))
      (((0 + 4294567296) % 2 ^ 32 + 400000) % 2 ^ 32) = GWAcc.mk 4294967296 0 0
    rw [show cexM3a.vector.x = 1 from rfl, show cexM3b.vector.x = 1 from rfl,
      show cexM3a.vector.y = 0 from rfl, show cexM3b.vector.y = 0 from rfl]
    norm_num
  rw [getWind_eq, haccum]
  rw [if_neg (by norm_num : ¬ (0 : ℕ) < (GWAcc.mk 4294967296 0 0).total)]
  refine ⟨rfl, fun habs => ?_⟩
  have hx := congrArg Vector.x habs
  norm_num at hx

theorem C3_witness :
    (getWind [wM4] 0 0).1 =
      ⟨(getWindAccum [wM4] (dtrunc 0) 0).sumX / ((getWindAccum [wM4] (dtrunc 0) 0).total : ℚ),
        (getWindAccum [wM4] (dtrunc 0) 0).sumY /
          ((getWindAccum [wM4] (dtrunc 0) 0).total : ℚ)⟩ := by
  have hw : windowOk (dtrunc 0) 0 wM4 := by
    rw [dtrunc_zero]
    constructor
    · rw [altdiffOf_self 0 wM4 rfl]
      norm_num
    · rw [timediffOf_self 0 wM4 rfl]
      norm_num
  have htot : (getWindAccum [wM4] (dtrunc 0) 0).total = 2000000 := by
    rw [dtrunc_zero, getWindAccum_single, gwStep_add _ _ _ _ (by rw [← dtrunc_zero]; exact hw)]
    show ((0 : ℕ) + sampleWeight 0 0 wM4) % 2 ^ 32 = 2000000
    have hsw : sampleWeight 0 0 wM4 = 2000000 := by
      unfold sampleWeight
      rw [altdiffOf_self 0 wM4 rfl, timediffOf_self 0 wM4 rfl,
        a_quality_zero, t_quality_zero]
      show (toU32 (Int.tdiv (5 * 100) 5) * ((toU32 100 * toU32 200) % 2 ^ 32)) % 2 ^ 32
        = 2000000
      decide
    rw [hsw]
    norm_num
  exact (C3_found_contract [wM4] 0 0).2.2.1 (by rw [htot]; norm_num)
    (by rw [htot]; norm_num)

/-! Claim C9: quality is stored and weighted without validation; large
out-of-range quality yields a negatively-reinterpreted weight. -/

/-- The slot chosen for eviction is always a valid index of a nonempty
store. -/
lemma gli_lt (Time : ℚ) (l : WindMeasurementList) (h : 0 < l.length) :
    getLeastImportantItem Time l < l.length := by
  unfold getLeastImportantItem
  rcases gliLoop_cases (fun i => evictionScore Time (l.getD i default)) l.length
      (0, l.length - 1) with hc | ⟨h1, -⟩
  · rw [hc]
    show l.length - 1 < l.length
    omega
  · exact h1

/-- An out-of-range quality sample. -/
def cexM9 : WindMeasurement := ⟨⟨1, 0⟩, 5369, 0, 0⟩

lemma cexM9_window : windowOk 0 0 cexM9 := by
  constructor
  · rw [altdiffOf_self 0 cexM9 rfl]
    norm_num
  · rw [timediffOf_self 0 cexM9 rfl]
    norm_num

lemma cexM9_weight : sampleWeight 0 0 cexM9 = 2147600000 := by
  unfold sampleWeight
  rw [altdiffOf_self 0 cexM9 rfl, timediffOf_self 0 cexM9 rfl,
    a_quality_zero, t_quality_zero]
  show (toU32 (Int.tdiv (5369 * 100) 5) * ((toU32 100 * toU32 200) % 2 ^ 32)) % 2 ^ 32
    = 2147600000
  decide

lemma cexM9_accum : getWindAccum [cexM9] (dtrunc 0) 0 = ⟨2147600000, 0, 2147600000⟩ := by
  rw [dtrunc_zero, getWindAccum_single, gwStep_add _ _ _ _ cexM9_window, cexM9_weight]
  show GWAcc.mk (0 + cexM9.vector.x * ((2147600000 : ℕ) : ℚ))
    (0 + cexM9.vector.y * ((2147600000 : ℕ) : ℚ))
    ((0 + 2147600000) % 2 ^ 32) = GWAcc.mk 2147600000 0 2147600000
  rw [show cexM9.vector.x = 1 from rfl, show cexM9.vector.y = 0 from rfl]
  norm_num

/-- Claim C9: addMeasurement stores any quality value unchanged (the new
sample, quality included, is always present in the store afterwards);
getWind's quality weight scales as quality*100/5 = 20*quality arbitrarily far
beyond the 1..5 design range; and for quality 5369 the combined weight
2147600000 reinterprets as the negative int -2147367296, so getWind divides
by a negative total and returns a negative estimate for a positive input
vector. -/
theorem C9_unvalidated_quality :
    (∀ (st : WindMeasurementList) (Time : ℚ) (v : Vector) (alt : ℚ) (q : ℤ),
      mkMeasurement Time v alt q ∈ addMeasurement st Time v alt q) ∧
    (∀ q : ℤ, 0 ≤ q → q * 20 < 2 ^ 32 →
      (toU32 (Int.tdiv (q * 100) 5) : ℤ) = q * 20) ∧
    (∃ q : ℤ, 5 < q ∧ toI32 (sampleWeight 0 0 ⟨⟨1, 0⟩, q, 0, 0⟩) < 0 ∧
      (getWind [(⟨⟨1, 0⟩, q, 0, 0⟩ : WindMeasurement)] 0 0).2 = true ∧
      (getWind [(⟨⟨1, 0⟩, q, 0, 0⟩ : WindMeasurement)] 0 0).1.x < 0) := by
  refine ⟨?_, ?_, ?_⟩
  · intro st Time v alt q
    unfold addMeasurement
    by_cases hc : st.length = MAX_MEASUREMENTS
    · rw [if_pos hc]
      exact List.mem_set st (getLeastImportantItem Time st)
        (gli_lt Time st (by rw [hc, MAX_MEASUREMENTS]; omega)) _
    · rw [if_neg hc]
      exact List.mem_append_right st (List.mem_singleton_self _)
  · intro q h0 h1
    rw [tdiv_q100]
    exact toU32_small (by omega) h1
  · refine ⟨5369, by norm_num, ?_, ?_, ?_⟩
    · rw [show (⟨⟨1, 0⟩, 5369, 0, 0⟩ : WindMeasurement) = cexM9 from rfl, cexM9_weight]
      decide
    · rw [show (⟨⟨1, 0⟩, 5369, 0, 0⟩ : WindMeasurement) = cexM9 from rfl,
        getWind_eq, cexM9_accum]
      rw [if_pos (by norm_num : (0 : ℕ) < (GWAcc.mk 2147600000 0 2147600000).total)]
    · rw [show (⟨⟨1, 0⟩, 5369, 0, 0⟩ : WindMeasurement) = cexM9 from rfl,
        getWind_eq, cexM9_accum]
      rw [if_pos (by norm_num : (0 : ℕ) < (GWAcc.mk 2147600000 0 2147600000).total)]
      show (2147600000 : ℚ) / ((toI32 2147600000 : ℤ) : ℚ) < 0
      rw [show toI32 2147600000 = -2147367296 by decide]
      norm_num

theorem C9_witness : (toU32 (Int.tdiv ((50 : ℤ) * 100) 5) : ℤ) = 50 * 20 :=
  C9_unvalidated_quality.2.1 50 (by norm_num) (by norm_num)

/-! Claim C10: times are truncated to integers at the public interface. -/

/-- Claim C10: getWind depends on its reference time only through the integer
truncation (int)Time, and addMeasurement stores (long)Time, so two calls
whose times truncate equally build identical samples. -/
theorem C10_time_truncation :
    (∀ (l : WindMeasurementList) (Time alt : ℚ),
      getWind l Time alt = getWind l ((dtrunc Time : ℤ) : ℚ) alt) ∧
    (∀ (t1 t2 : ℚ) (v : Vector) (alt : ℚ) (q : ℤ), dtrunc t1 = dtrunc t2 →
      mkMeasurement t1 v alt q = mkMeasurement t2 v alt q) := by
  constructor
  · intro l Time alt
    rw [getWind_eq, getWind_eq, dtrunc_intCast]
  · intro t1 t2 v alt q h
    unfold mkMeasurement
    rw [h]

theorem C10_witness :
    mkMeasurement (1 / 2) ⟨1, 2⟩ 0 3 = mkMeasurement (3 / 4) ⟨1, 2⟩ 0 3 := by
  refine C10_time_truncation.2 (1 / 2) (3 / 4) ⟨1, 2⟩ 0 3 ?_
  have h1 : dtrunc (1 / 2 : ℚ) = 0 :=
    dtrunc_eval_nonneg (by norm_num) (by norm_num) (by norm_num)
  have h2 : dtrunc (3 / 4 : ℚ) = 0 :=
    dtrunc_eval_nonneg (by norm_num) (by norm_num) (by norm_num)
  rw [h1, h2]

/-! Claim C8: monotone quality weighting between two contemporaneous
samples. -/

/-- Squared Euclidean distance between two vectors, used to compare how close
the estimate lies to each input vector. -/
def distSq (u v : Vector) : ℚ := (u.x - v.x) ^ 2 + (u.y - v.y) ^ 2

/-- A blend (a*v1 + b*v2)/(a+b) with 0 <= a < b lies strictly closer to v2
than to v1, provided v1 and v2 differ. -/
lemma distSq_blend (x1 y1 x2 y2 a b : ℚ) (ha : 0 ≤ a) (hab : a < b)
    (hD : 0 < (x1 - x2) ^ 2 + (y1 - y2) ^ 2) :
    distSq ⟨(x1 * a + x2 * b) / (a + b), (y1 * a + y2 * b) / (a + b)⟩ ⟨x2, y2⟩ <
      distSq ⟨(x1 * a + x2 * b) / (a + b), (y1 * a + y2 * b) / (a + b)⟩ ⟨x1, y1⟩ := by
  have hb : 0 < b := lt_of_le_of_lt ha hab
  have hW : 0 < a + b := by linarith
  have hWne : a + b ≠ 0 := ne_of_gt hW
  unfold distSq
  have e1 : (x1 * a + x2 * b) / (a + b) - x2 = a * (x1 - x2) / (a + b) := by
    field_simp
    ring
  have e2 : (y1 * a + y2 * b) / (a + b) - y2 = a * (y1 - y2) / (a + b) := by
    field_simp
    ring
  have e3 : (x1 * a + x2 * b) / (a + b) - x1 = b * (x2 - x1) / (a + b) := by
    field_simp
    ring
  have e4 : (y1 * a + y2 * b) / (a + b) - y1 = b * (y2 - y1) / (a + b) := by
    field_simp
    ring
  show ((x1 * a + x2 * b) / (a + b) - x2) ^ 2 + ((y1 * a + y2 * b) / (a + b) - y2) ^ 2 <
    ((x1 * a + x2 * b) / (a + b) - x1) ^ 2 + ((y1 * a + y2 * b) / (a + b) - y1) ^ 2
  rw [e1, e2, e3, e4, div_pow, div_pow, div_pow, div_pow,
    div_add_div_same, div_add_div_same]
  rw [div_lt_div_iff_of_pos_right (by positivity : (0 : ℚ) < (a + b) ^ 2)]
  have ha2 : a ^ 2 < b ^ 2 := by nlinarith
  nlinarith [sq_nonneg (x1 - x2), sq_nonneg (y1 - y2), sq_nonneg (x2 - x1),
    sq_nonneg (y2 - y1)]

/-- Total accumulated weight over a two-sample in-window store, below the
wraparound threshold. -/
lemma getWindAccum_pair_total (m1 m2 : WindMeasurement) (now : ℤ) (alt : ℚ)
    (h1 : windowOk now alt m1) (h2 : windowOk now alt m2)
    (hlt : sampleWeight now alt m1 + sampleWeight now alt m2 < 2 ^ 32) :
    (getWindAccum [m1, m2] now alt).total =
      sampleWeight now alt m1 + sampleWeight now alt m2 := by
  rw [getWindAccum_pair, gwStep_add _ _ _ _ h1, gwStep_add _ _ _ _ h2]
  show (((0 + sampleWeight now alt m1) % 2 ^ 32) + sampleWeight now alt m2) % 2 ^ 32 =
    sampleWeight now alt m1 + sampleWeight now alt m2
  rw [Nat.zero_add, Nat.mod_eq_of_lt (sampleWeight_lt now alt m1), Nat.mod_eq_of_lt hlt]

/-- Full evaluation of getWind on a two-sample in-window store whose total
weight is positive and below 2^31. -/
lemma getWind_pair (m1 m2 : WindMeasurement) (Time alt : ℚ)
    (h1 : windowOk (dtrunc Time) alt m1) (h2 : windowOk (dtrunc Time) alt m2)
    (hlt : sampleWeight (dtrunc Time) alt m1 + sampleWeight (dtrunc Time) alt m2 < 2 ^ 31)
    (hpos : 0 < sampleWeight (dtrunc Time) alt m1 + sampleWeight (dtrunc Time) alt m2) :
    getWind [m1, m2] Time alt =
      (⟨(m1.vector.x * (sampleWeight (dtrunc Time) alt m1 : ℚ) +
          m2.vector.x * (sampleWeight (dtrunc Time) alt m2 : ℚ)) /
          ((sampleWeight (dtrunc Time) alt m1 : ℚ) +
            (sampleWeight (dtrunc Time) alt m2 : ℚ)),
        (m1.vector.y * (sampleWeight (dtrunc Time) alt m1 : ℚ) +
          m2.vector.y * (sampleWeight (dtrunc Time) alt m2 : ℚ)) /
          ((sampleWeight (dtrunc Time) alt m1 : ℚ) +
            (sampleWeight (dtrunc Time) alt m2 : ℚ))⟩, true) := by
  have htot := getWindAccum_pair_total m1 m2 (dtrunc Time) alt h1 h2
    (lt_trans hlt (by norm_num))
  rw [getWind_eq, htot, if_pos hpos]
  rw [toI32_small hlt]
  have hacc : getWindAccum [m1, m2] (dtrunc Time) alt =
      GWAcc.mk (0 + m1.vector.x * (sampleWeight (dtrunc Time) alt m1 : ℚ) +
          m2.vector.x * (sampleWeight (dtrunc Time) alt m2 : ℚ))
        (0 + m1.vector.y * (sampleWeight (dtrunc Time) alt m1 : ℚ) +
          m2.vector.y * (sampleWeight (dtrunc Time) alt m2 : ℚ))
        (((0 + sampleWeight (dtrunc Time) alt m1) % 2 ^ 32 +
          sampleWeight (dtrunc Time) alt m2) % 2 ^ 32) := by
    rw [getWindAccum_pair, gwStep_add _ _ _ _ h1, gwStep_add _ _ _ _ h2]
  rw [hacc]
  refine Prod.ext ?_ rfl
  show Vector.mk _ _ = Vector.mk _ _
  congr 1
  · push_cast
    ring
  · push_cast
    ring

/-- Claim C8, amended: for two in-window samples that share altitude and time
but have qualities q1 < q2 in 1..5 and distinct vectors, and whose common
positional weight aw * tw is nonzero, the higher-quality sample has the
strictly larger weight, the strictly larger share of the total weight, the
query succeeds, and the returned estimate lies strictly closer (in squared
distance) to the higher-quality sample's vector. -/
theorem C8_quality_monotone (m1 m2 : WindMeasurement) (Time alt : ℚ)
    (halt : m1.altitude = m2.altitude) (htime : m1.time = m2.time)
    (hw : windowOk (dtrunc Time) alt m1)
    (hq1 : 1 ≤ m1.quality) (h12 : m1.quality < m2.quality) (hq2 : m2.quality ≤ 5)
    (hAT : 0 < a_quality (altdiffOf alt m1) * t_quality (timediffOf (dtrunc Time) m1))
    (hv : m1.vector ≠ m2.vector) :
    sampleWeight (dtrunc Time) alt m1 < sampleWeight (dtrunc Time) alt m2 ∧
    (sampleWeight (dtrunc Time) alt m1 : ℚ) /
        ((getWindAccum [m1, m2] (dtrunc Time) alt).total : ℚ) <
      (sampleWeight (dtrunc Time) alt m2 : ℚ) /
        ((getWindAccum [m1, m2] (dtrunc Time) alt).total : ℚ) ∧
    (getWind [m1, m2] Time alt).2 = true ∧
    distSq (getWind [m1, m2] Time alt).1 m2.vector <
      distSq (getWind [m1, m2] Time alt).1 m1.vector := by
  obtain ⟨⟨x1, y1⟩, q1, t1, a1⟩ := m1
  obtain ⟨⟨x2, y2⟩, q2, t2, a2⟩ := m2
  simp only at halt htime hq1 h12 hq2 hv ⊢
  subst halt
  subst htime
  obtain ⟨hwa, hwt⟩ := hw
  obtain ⟨hA0, hA1⟩ := a_quality_bounds hwa
  have hT0q : (0 : ℚ) ≤ timediffOf (dtrunc Time) ⟨⟨x1, y1⟩, q1, t1, a1⟩ := by
    unfold timediffOf
    exact abs_nonneg _
  obtain ⟨hT0, hT1⟩ := t_quality_bounds hT0q hwt
  have hw2 : windowOk (dtrunc Time) alt ⟨⟨x2, y2⟩, q2, t1, a1⟩ := ⟨hwa, hwt⟩
  have hadiff : altdiffOf alt (⟨⟨x2, y2⟩, q2, t1, a1⟩ : WindMeasurement) =
      altdiffOf alt (⟨⟨x1, y1⟩, q1, t1, a1⟩ : WindMeasurement) := rfl
  have htdiff : timediffOf (dtrunc Time) (⟨⟨x2, y2⟩, q2, t1, a1⟩ : WindMeasurement) =
      timediffOf (dtrunc Time) (⟨⟨x1, y1⟩, q1, t1, a1⟩ : WindMeasurement) := rfl
  have hproj1 : ((⟨⟨x1, y1⟩, q1, t1, a1⟩ : WindMeasurement)).quality = q1 := rfl
  have hproj2 : ((⟨⟨x2, y2⟩, q2, t1, a1⟩ : WindMeasurement)).quality = q2 := rfl
  have hw1z : (sampleWeight (dtrunc Time) alt ⟨⟨x1, y1⟩, q1, t1, a1⟩ : ℤ) =
      q1 * 20 * (a_quality (altdiffOf alt ⟨⟨x1, y1⟩, q1, t1, a1⟩) *
        t_quality (timediffOf (dtrunc Time) ⟨⟨x1, y1⟩, q1, t1, a1⟩)) := by
    rw [sampleWeight_eq _ _ _ ⟨hwa, hwt⟩, hproj1]
    exact Int.emod_eq_of_lt (by nlinarith) (by nlinarith)
  have hw2z : (sampleWeight (dtrunc Time) alt ⟨⟨x2, y2⟩, q2, t1, a1⟩ : ℤ) =
      q2 * 20 * (a_quality (altdiffOf alt ⟨⟨x1, y1⟩, q1, t1, a1⟩) *
        t_quality (timediffOf (dtrunc Time) ⟨⟨x1, y1⟩, q1, t1, a1⟩)) := by
    rw [sampleWeight_eq _ _ _ hw2, hadiff, htdiff, hproj2]
    exact Int.emod_eq_of_lt (by nlinarith) (by nlinarith)
  have hlt12 : sampleWeight (dtrunc Time) alt ⟨⟨x1, y1⟩, q1, t1, a1⟩ <
      sampleWeight (dtrunc Time) alt ⟨⟨x2, y2⟩, q2, t1, a1⟩ := by
    have hz : (sampleWeight (dtrunc Time) alt ⟨⟨x1, y1⟩, q1, t1, a1⟩ : ℤ) <
        (sampleWeight (dtrunc Time) alt ⟨⟨x2, y2⟩, q2, t1, a1⟩ : ℤ) := by
      rw [hw1z, hw2z]
      nlinarith
    exact_mod_cast hz
  have hpos1 : 0 < sampleWeight (dtrunc Time) alt ⟨⟨x1, y1⟩, q1, t1, a1⟩ := by
    have hz : (0 : ℤ) < (sampleWeight (dtrunc Time) alt ⟨⟨x1, y1⟩, q1, t1, a1⟩ : ℤ) := by
      rw [hw1z]
      nlinarith
    exact_mod_cast hz
  have hsum31 : sampleWeight (dtrunc Time) alt ⟨⟨x1, y1⟩, q1, t1, a1⟩ +
      sampleWeight (dtrunc Time) alt ⟨⟨x2, y2⟩, q2, t1, a1⟩ < 2 ^ 31 := by
    have hz : (sampleWeight (dtrunc Time) alt ⟨⟨x1, y1⟩, q1, t1, a1⟩ : ℤ) +
        (sampleWeight (dtrunc Time) alt ⟨⟨x2, y2⟩, q2, t1, a1⟩ : ℤ) < 2 ^ 31 := by
      rw [hw1z, hw2z]
      nlinarith
    exact_mod_cast hz
  have hpossum : 0 < sampleWeight (dtrunc Time) alt ⟨⟨x1, y1⟩, q1, t1, a1⟩ +
      sampleWeight (dtrunc Time) alt ⟨⟨x2, y2⟩, q2, t1, a1⟩ :=
    Nat.add_pos_left hpos1 _
  have hgw := getWind_pair ⟨⟨x1, y1⟩, q1, t1, a1⟩ ⟨⟨x2, y2⟩, q2, t1, a1⟩ Time alt
    ⟨hwa, hwt⟩ hw2 hsum31 hpossum
  have hD : 0 < (x1 - x2) ^ 2 + (y1 - y2) ^ 2 := by
    have hne : x1 ≠ x2 ∨ y1 ≠ y2 := by
      by_contra hc
      push_neg at hc
      exact hv (by rw [hc.1, hc.2])
    rcases hne with hne | hne
    · rcases lt_or_gt_of_ne (sub_ne_zero.mpr hne) with h | h
      · nlinarith [sq_nonneg (y1 - y2)]
      · nlinarith [sq_nonneg (y1 - y2)]
    · rcases lt_or_gt_of_ne (sub_ne_zero.mpr hne) with h | h
      · nlinarith [sq_nonneg (x1 - x2)]
      · nlinarith [sq_nonneg (x1 - x2)]
  refine ⟨hlt12, ?_, ?_, ?_⟩
  · rw [getWindAccum_pair_total _ _ _ _ ⟨hwa, hwt⟩ hw2 (lt_trans hsum31 (by norm_num))]
    rw [div_lt_div_iff_of_pos_right (by exact_mod_cast hpossum)]
    exact_mod_cast hlt12
  · rw [hgw]
  · rw [hgw]
    show distSq ⟨(x1 * (sampleWeight (dtrunc Time) alt ⟨⟨x1, y1⟩, q1, t1, a1⟩ : ℚ) +
        x2 * (sampleWeight (dtrunc Time) alt ⟨⟨x2, y2⟩, q2, t1, a1⟩ : ℚ)) / _,
      (y1 * _ + y2 * _) / _⟩ ⟨x2, y2⟩ < _
    exact distSq_blend x1 y1 x2 y2 _ _ (by positivity) (by exact_mod_cast hlt12) hD

/-- Two samples sharing altitude 0 and time 0, with qualities 1 < 5 and
distinct vectors, queried at reference time 3597 (in-window, but the time
factor rounds to 0). -/
def cexM8a : WindMeasurement := ⟨⟨0, 0⟩, 1, 0, 0⟩

def cexM8b : WindMeasurement := ⟨⟨1, 1⟩, 5, 0, 0⟩

lemma dtrunc_3597 : dtrunc (3597 : ℚ) = 3597 := by
  rw [show (3597 : ℚ) = ((3597 : ℤ) : ℚ) by norm_num, dtrunc_intCast]

lemma cexM8a_timediff : timediffOf 3597 cexM8a = 3597 / 3600 := by
  show |((3597 - 0 : ℤ) : ℚ) / 3600| = 3597 / 3600
  norm_num

lemma cexM8b_timediff : timediffOf 3597 cexM8b = 3597 / 3600 := by
  show |((3597 - 0 : ℤ) : ℚ) / 3600| = 3597 / 3600
  norm_num

lemma cexM8a_window : windowOk 3597 0 cexM8a := by
  constructor
  · rw [altdiffOf_self 0 cexM8a rfl]
    norm_num
  · rw [cexM8a_timediff]
    norm_num

lemma cexM8b_window : windowOk 3597 0 cexM8b := by
  constructor
  · rw [altdiffOf_self 0 cexM8b rfl]
    norm_num
  · rw [cexM8b_timediff]
    norm_num

lemma cexM8a_weight : sampleWeight 3597 0 cexM8a = 0 := by
  unfold sampleWeight
  rw [altdiffOf_self 0 cexM8a rfl, cexM8a_timediff, a_quality_zero, t_quality_edge]
  show (toU32 (Int.tdiv (1 * 100) 5) * ((toU32 100 * toU32 0) % 2 ^ 32)) % 2 ^ 32 = 0
  decide

lemma cexM8b_weight : sampleWeight 3597 0 cexM8b = 0 := by
  unfold sampleWeight
  rw [altdiffOf_self 0 cexM8b rfl, cexM8b_timediff, a_quality_zero, t_quality_edge]
  show (toU32 (Int.tdiv (5 * 100) 5) * ((toU32 100 * toU32 0) % 2 ^ 32)) % 2 ^ 32 = 0
  decide

/-- Claim C8 as stated is false: these two in-window samples share altitude
and time and have qualities 1 < 5 with distinct vectors, yet both combined
weights are 0 (the near-edge time factor rounds to zero), so the
higher-quality sample's weight is not strictly larger and no estimate is
produced at all (found = false). -/
theorem C8_counterexample :
    cexM8a.quality < cexM8b.quality ∧
    cexM8a.altitude = cexM8b.altitude ∧ cexM8a.time = cexM8b.time ∧
    cexM8a.vector ≠ cexM8b.vector ∧
    windowOk (dtrunc 3597) 0 cexM8a ∧ windowOk (dtrunc 3597) 0 cexM8b ∧
    sampleWeight (dtrunc 3597) 0 cexM8a = sampleWeight (dtrunc 3597) 0 cexM8b ∧
    (getWind [cexM8a, cexM8b] 3597 0).2 = false := by
  have hq : cexM8a.quality < cexM8b.quality := by
    show (1 : ℤ) < 5
    norm_num
  have hv : cexM8a.vector ≠ cexM8b.vector := by
    intro hc
    exact absurd (congrArg Vector.x hc) (by norm_num [cexM8a, cexM8b])
  refine ⟨hq, rfl, rfl, hv, by rw [dtrunc_3597]; exact cexM8a_window,
    by rw [dtrunc_3597]; exact cexM8b_window, ?_, ?_⟩
  · rw [dtrunc_3597, cexM8a_weight, cexM8b_weight]
  · rw [getWind_eq, dtrunc_3597,
      getWindAccum_pair_total _ _ _ _ cexM8a_window cexM8b_window
        (by rw [cexM8a_weight, cexM8b_weight]; norm_num)]
    rw [if_neg (by rw [cexM8a_weight, cexM8b_weight]; norm_num)]

/-- Two contemporaneous samples at the query point with qualities 1 and 5 and
distinct vectors, for the witness of C8_quality_monotone. -/
def wM8a : WindMeasurement := ⟨⟨0, 0⟩, 1, 0, 0⟩

def wM8b : WindMeasurement := ⟨⟨10, 0⟩, 5, 0, 0⟩

theorem C8_witness :
    sampleWeight (dtrunc 0) 0 wM8a < sampleWeight (dtrunc 0) 0 wM8b := by
  have hta : wM8a.time = dtrunc 0 := by
    rw [dtrunc_zero]
    rfl
  have hw : windowOk (dtrunc 0) 0 wM8a := by
    constructor
    · rw [altdiffOf_self 0 wM8a rfl]
      norm_num
    · rw [timediffOf_self (dtrunc 0) wM8a hta]
      norm_num
  have hAT : 0 < a_quality (altdiffOf 0 wM8a) *
      t_quality (timediffOf (dtrunc 0) wM8a) := by
    rw [altdiffOf_self 0 wM8a rfl, timediffOf_self (dtrunc 0) wM8a hta,
      a_quality_zero, t_quality_zero]
    norm_num
  have hv : wM8a.vector ≠ wM8b.vector := by
    intro hc
    exact absurd (congrArg Vector.x hc) (by norm_num [wM8a, wM8b])
  exact (C8_quality_monotone wM8a wM8b 0 0 rfl rfl hw (by norm_num [wM8a])
    (by norm_num [wM8a, wM8b]) (by norm_num [wM8b]) hAT hv).1

end XCSoar
